import Mathlib

/-!
Shallow embedding of the user/task CRUD service in `src/main.py`.

Each HTTP handler becomes a pure function over the in-memory collection
(the parsed contents of `users.json` / `tasks.json`).  A handler that
raises `ValidationError` (HTTP 400) or `NotFoundError` (HTTP 404) is
modelled as returning `Except.error`; on success it returns its response
body together with the collection it wrote back to disk.  A handler that
raises before its `write_file` call leaves the persisted collection
unchanged, which the `persist…` wrappers below make explicit.

Python truthiness (`if name:` skips both `None` and `""`; `if user_id:`
skips both `None` and `0`) is reproduced field by field, exactly as in
the source.
-/

set_option autoImplicit false

namespace Main

/-- A record of the users collection (`users.json`). -/
structure User where
  id : Int
  name : String
  email : String
  password : String
  deriving Repr, DecidableEq

/-- A record of the tasks collection (`tasks.json`); `description` and
`user_id` may be JSON `null`. -/
structure Task where
  id : Int
  title : String
  description : Option String
  user_id : Option Int
  deriving Repr, DecidableEq

/-- The error taxonomy of `src/errors.py`: `ValidationError` renders as
HTTP 400 and `NotFoundError` as HTTP 404, each carrying its detail
message verbatim. -/
inductive Err where
  | validation (detail : String)
  | notFound (detail : String)
  deriving Repr, DecidableEq

/-- The response body of `POST /users` and `POST /register`:
`{"id": ..., "name": ..., "email": ...}` — no password field. -/
structure CreateUserResponse where
  id : Int
  name : String
  email : String
  deriving Repr, DecidableEq

/-- Python's `max(list, default=0)`. -/
def maxId : List Int → Int
  | [] => 0
  | x :: xs => xs.foldl max x

/-- The update handler's email check: `"@" not in email or "." not in email`
raises; so the shape is accepted iff both characters occur.  Python's
single-character substring test is occurrence among the code points. -/
def emailShapeOk (e : String) : Bool :=
  e.data.contains '@' && e.data.contains '.'

/-- `create_user` (`POST /users`): rejects an already-registered email,
otherwise assigns `max(ids)+1`, appends, persists, and answers without
the password field. -/
def create_user (name email password : String) (users : List User) :
    Except Err (CreateUserResponse × List User) :=
  if users.any (fun u => u.email == email) then
    Except.error (Err.validation "Email already registered")
  else
    let user_id := maxId (users.map User.id) + 1
    let new_user : User := { id := user_id, name := name, email := email, password := password }
    Except.ok ({ id := user_id, name := name, email := email }, users ++ [new_user])

/-- `register_user` (`POST /register`): same body as `create_user`. -/
def register_user (name email password : String) (users : List User) :
    Except Err (CreateUserResponse × List User) :=
  if users.any (fun u => u.email == email) then
    Except.error (Err.validation "Email already registered")
  else
    let user_id := maxId (users.map User.id) + 1
    let new_user : User := { id := user_id, name := name, email := email, password := password }
    Except.ok ({ id := user_id, name := name, email := email }, users ++ [new_user])

/-- `if name: user["name"] = name` — a `None` or empty name is skipped. -/
def applyName (u : User) : Option String → User
  | some n => if n == "" then u else { u with name := n }
  | none => u

/-- `if email: …` — a `None` or empty email is skipped; a non-empty one
must contain `"@"` and `"."` or the handler raises `ValidationError`. -/
def applyEmail (u : User) : Option String → Except Err User
  | some e =>
    if e == "" then Except.ok u
    else if emailShapeOk e then Except.ok { u with email := e }
    else Except.error (Err.validation "Invalid email format")
  | none => Except.ok u

/-- `if password: …` — a `None` or empty password is skipped; a non-empty
one shorter than 6 characters raises `ValidationError`. -/
def applyPassword (u : User) : Option String → Except Err User
  | some p =>
    if p == "" then Except.ok u
    else if p.length < 6 then
      Except.error (Err.validation "Password must have at least 6 characters")
    else Except.ok { u with password := p }
  | none => Except.ok u

/-- The field updates `update_user` applies to the matching record, in
source order: name, then email, then password, stopping at the first
validation failure. -/
def applyUserFields (u : User) (name email password : Option String) : Except Err User :=
  match applyEmail (applyName u name) email with
  | Except.ok u2 => applyPassword u2 password
  | Except.error e => Except.error e

/-- `update_user` (`PUT /users/{user_id}`): scans for the first record
with the given id, applies the provided fields, persists, and returns the
full updated record (password included).  A validation failure raises
before `write_file`, so on `Except.error` the persisted collection is the
old one (see `persistUsersUpdate`). -/
def update_user (user_id : Int) (name email password : Option String) :
    List User → Except Err (User × List User)
  | [] => Except.error (Err.notFound ("User with ID " ++ toString user_id ++ " not found"))
  | u :: us =>
    if u.id == user_id then
      match applyUserFields u name email password with
      | Except.ok u2 => Except.ok (u2, u2 :: us)
      | Except.error e => Except.error e
    else
      match update_user user_id name email password us with
      | Except.ok (r, us2) => Except.ok (r, u :: us2)
      | Except.error e => Except.error e

/-- `delete_user` (`DELETE /users/{user_id}`). -/
def delete_user (user_id : Int) (users : List User) : Except Err (List User) :=
  let updated_users := users.filter (fun u => !(u.id == user_id))
  if updated_users.length == users.length then
    Except.error (Err.notFound ("User with ID " ++ toString user_id ++ " not found"))
  else
    Except.ok updated_users

/-- `validate_user`: raises `ValidationError` when no user has the id. -/
def validate_user (user_id : Int) (users : List User) : Except Err Unit :=
  if users.any (fun u => u.id == user_id) then Except.ok ()
  else Except.error (Err.validation ("No user exists with ID " ++ toString user_id))

/-- `login` (`POST /login`): first record matching both email and
password wins; otherwise one fixed `ValidationError`, identical for an
unknown email and a wrong password. -/
def login (email password : String) (users : List User) : Except Err Int :=
  match users.find? (fun u => u.email == email && u.password == password) with
  | some u => Except.ok u.id
  | none => Except.error (Err.validation "Invalid email or password")

/-- `create_task`'s guard `if user_id: await validate_user(user_id)`:
Python truthiness, so `None` and `0` both skip the existence check. -/
def checkTaskUser (user_id : Option Int) (users : List User) : Except Err Unit :=
  match user_id with
  | some uid => if uid == 0 then Except.ok () else validate_user uid users
  | none => Except.ok ()

/-- `create_task` (`POST /tasks`): validates a truthy `user_id` against
the users collection, assigns `max(ids)+1`, appends and persists, and
returns the full created record. -/
def create_task (title : String) (description : Option String) (user_id : Option Int)
    (users : List User) (tasks : List Task) : Except Err (Task × List Task) :=
  match checkTaskUser user_id users with
  | Except.error e => Except.error e
  | Except.ok _ =>
    let task_id := maxId (tasks.map Task.id) + 1
    let new_task : Task := { id := task_id, title := title, description := description, user_id := user_id }
    Except.ok (new_task, tasks ++ [new_task])

/-- `if title: task["title"] = title` — truthiness, like a user's name. -/
def applyTitle (t : Task) : Option String → Task
  | some s => if s == "" then t else { t with title := s }
  | none => t

/-- `if description is not None: task["description"] = description` —
a presence check: an explicitly empty string does replace. -/
def applyDescription (t : Task) : Option String → Task
  | some d => { t with description := some d }
  | none => t

/-- `if user_id is not None: await validate_user(user_id); task["user_id"] = user_id`
— a presence check, and the referenced user must exist. -/
def applyTaskUserId (users : List User) (t : Task) : Option Int → Except Err Task
  | some uid =>
    match validate_user uid users with
    | Except.ok _ => Except.ok { t with user_id := some uid }
    | Except.error e => Except.error e
  | none => Except.ok t

/-- The field updates `update_task` applies to the matching record, in
source order: title, then description, then user_id. -/
def applyTaskFields (users : List User) (t : Task)
    (title description : Option String) (user_id : Option Int) : Except Err Task :=
  applyTaskUserId users (applyDescription (applyTitle t title) description) user_id

/-- `update_task` (`PUT /tasks/{task_id}`): first record with the id is
updated; a validation failure raises before `write_file`. -/
def update_task (task_id : Int) (title description : Option String) (user_id : Option Int)
    (users : List User) : List Task → Except Err (Task × List Task)
  | [] => Except.error (Err.notFound ("Task with ID " ++ toString task_id ++ " not found"))
  | t :: ts =>
    if t.id == task_id then
      match applyTaskFields users t title description user_id with
      | Except.ok t2 => Except.ok (t2, t2 :: ts)
      | Except.error e => Except.error e
    else
      match update_task task_id title description user_id users ts with
      | Except.ok (r, ts2) => Except.ok (r, t :: ts2)
      | Except.error e => Except.error e

/-- `delete_task` (`DELETE /tasks/{task_id}`). -/
def delete_task (task_id : Int) (tasks : List Task) : Except Err (List Task) :=
  let updated_tasks := tasks.filter (fun t => !(t.id == task_id))
  if updated_tasks.length == tasks.length then
    Except.error (Err.notFound ("Task with ID " ++ toString task_id ++ " not found"))
  else
    Except.ok updated_tasks

/-- The users collection on disk after a `PUT /users/{id}` request: the
handler writes only on success, so an error leaves the old contents. -/
def persistUsersUpdate (user_id : Int) (name email password : Option String)
    (users : List User) : List User :=
  match update_user user_id name email password users with
  | Except.ok (_, us2) => us2
  | Except.error _ => users

/-- The users collection on disk after a `POST /users` request. -/
def persistUsersCreate (name email password : String) (users : List User) : List User :=
  match create_user name email password users with
  | Except.ok (_, us2) => us2
  | Except.error _ => users

/-- The users collection on disk after a `POST /register` request. -/
def persistUsersRegister (name email password : String) (users : List User) : List User :=
  match register_user name email password users with
  | Except.ok (_, us2) => us2
  | Except.error _ => users

/-- The tasks collection on disk after a `POST /tasks` request. -/
def persistTasksCreate (title : String) (description : Option String) (user_id : Option Int)
    (users : List User) (tasks : List Task) : List Task :=
  match create_task title description user_id users tasks with
  | Except.ok (_, ts2) => ts2
  | Except.error _ => tasks

/-!
The record store (`read_file` / `write_file`): each collection is one
JSON array of flat objects.  `write_file` serializes the records with
`json.dumps` (fields in construction order, as §6 notes) and `read_file`
parses them back with `json.loads`.  The embedding works at the level of
the JSON document tree: the byte-level rendering with `indent=4` is the
formatting the round-trip claim explicitly ignores.
-/

/-- A JSON value as stored in the collection documents. -/
inductive Json where
  | null
  | str (s : String)
  | int (n : Int)
  | arr (elems : List Json)
  | obj (fields : List (String × Json))

/-- The JSON object `json.dumps` writes for a user record. -/
def User.toJson (u : User) : Json :=
  Json.obj [("id", Json.int u.id), ("name", Json.str u.name),
    ("email", Json.str u.email), ("password", Json.str u.password)]

/-- Recover a user record from the JSON object shape this system writes. -/
def User.fromJson : Json → Option User
  | Json.obj [("id", Json.int i), ("name", Json.str n),
      ("email", Json.str e), ("password", Json.str p)] =>
    some { id := i, name := n, email := e, password := p }
  | _ => none

/-- An optional string field is written as `null` or a string. -/
def optStrToJson : Option String → Json
  | none => Json.null
  | some s => Json.str s

/-- An optional integer field is written as `null` or a number. -/
def optIntToJson : Option Int → Json
  | none => Json.null
  | some n => Json.int n

def jsonToOptStr : Json → Option (Option String)
  | Json.null => some none
  | Json.str s => some (some s)
  | _ => none

def jsonToOptInt : Json → Option (Option Int)
  | Json.null => some none
  | Json.int n => some (some n)
  | _ => none

/-- The JSON object `json.dumps` writes for a task record. -/
def Task.toJson (t : Task) : Json :=
  Json.obj [("id", Json.int t.id), ("title", Json.str t.title),
    ("description", optStrToJson t.description), ("user_id", optIntToJson t.user_id)]

/-- Recover a task record from the JSON object shape this system writes. -/
def Task.fromJson : Json → Option Task
  | Json.obj [("id", Json.int i), ("title", Json.str ti),
      ("description", d), ("user_id", uid)] =>
    match jsonToOptStr d, jsonToOptInt uid with
    | some d2, some uid2 => some { id := i, title := ti, description := d2, user_id := uid2 }
    | _, _ => none
  | _ => none

/-- `write_file` for the users collection: the document tree written. -/
def encodeUsers (users : List User) : Json :=
  Json.arr (users.map User.toJson)

def decodeUserElems : List Json → Option (List User)
  | [] => some []
  | j :: js =>
    match User.fromJson j, decodeUserElems js with
    | some u, some us => some (u :: us)
    | _, _ => none

/-- `read_file` for the users collection: parse the document tree back
into records; any shape mismatch is a failure. -/
def decodeUsers : Json → Option (List User)
  | Json.arr js => decodeUserElems js
  | _ => none

/-- `write_file` for the tasks collection: the document tree written. -/
def encodeTasks (tasks : List Task) : Json :=
  Json.arr (tasks.map Task.toJson)

def decodeTaskElems : List Json → Option (List Task)
  | [] => some []
  | j :: js =>
    match Task.fromJson j, decodeTaskElems js with
    | some t, some ts => some (t :: ts)
    | _, _ => none

/-- `read_file` for the tasks collection. -/
def decodeTasks : Json → Option (List Task)
  | Json.arr js => decodeTaskElems js
  | _ => none

/-- The invariant of spec §3: no two users share an email. -/
def EmailsUnique (users : List User) : Prop :=
  (users.map User.email).Nodup

instance (users : List User) : Decidable (EmailsUnique users) :=
  inferInstanceAs (Decidable ((users.map User.email).Nodup))

/-! ### Helper lemmas -/

theorem le_foldl_max (xs : List Int) : ∀ a : Int, a ≤ xs.foldl max a := by
  induction xs with
  | nil => intro a; exact le_refl a
  | cons x xs ih =>
    intro a
    rw [List.foldl_cons]
    exact le_trans (le_max_left a x) (ih (max a x))

theorem mem_le_foldl_max (xs : List Int) : ∀ (a x : Int), x ∈ xs → x ≤ xs.foldl max a := by
  induction xs with
  | nil => intro a x hx; cases hx
  | cons y ys ih =>
    intro a x hx
    rw [List.foldl_cons]
    rcases List.mem_cons.mp hx with h | h
    · subst h
      exact le_trans (le_max_right a x) (le_foldl_max ys (max a x))
    · exact ih (max a y) x h

/-- Every id present in the collection is at most `maxId`. -/
theorem mem_le_maxId (xs : List Int) (x : Int) (hx : x ∈ xs) : x ≤ maxId xs := by
  cases xs with
  | nil => cases hx
  | cons y ys =>
    rcases List.mem_cons.mp hx with h | h
    · subst h
      exact le_foldl_max ys x
    · exact mem_le_foldl_max ys y x h

theorem applyName_id (u : User) (nm : Option String) : (applyName u nm).id = u.id := by
  cases nm with
  | none => rfl
  | some n =>
    simp only [applyName]
    split <;> rfl

theorem applyName_email (u : User) (nm : Option String) : (applyName u nm).email = u.email := by
  cases nm with
  | none => rfl
  | some n =>
    simp only [applyName]
    split <;> rfl

theorem applyName_password (u : User) (nm : Option String) :
    (applyName u nm).password = u.password := by
  cases nm with
  | none => rfl
  | some n =>
    simp only [applyName]
    split <;> rfl

theorem applyEmail_ok (u u2 : User) (e : Option String) (h : applyEmail u e = Except.ok u2) :
    u2.id = u.id ∧ u2.name = u.name ∧ u2.password = u.password ∧
      (e = none → u2.email = u.email) := by
  cases e with
  | none =>
    simp only [applyEmail] at h
    injection h with h
    subst h
    exact ⟨rfl, rfl, rfl, fun _ => rfl⟩
  | some s =>
    simp only [applyEmail] at h
    split at h
    · injection h with h
      subst h
      refine ⟨rfl, rfl, rfl, fun hc => ?_⟩
      simp at hc
    · split at h
      · injection h with h
        subst h
        refine ⟨rfl, rfl, rfl, fun hc => ?_⟩
        simp at hc
      · exact Except.noConfusion h

theorem applyEmail_error (u : User) (e : Option String) (err : Err)
    (h : applyEmail u e = Except.error err) : err = Err.validation "Invalid email format" := by
  cases e with
  | none => exact Except.noConfusion h
  | some s =>
    simp only [applyEmail] at h
    split at h
    · exact Except.noConfusion h
    · split at h
      · exact Except.noConfusion h
      · injection h with h
        exact h.symm

theorem applyPassword_ok (u u2 : User) (p : Option String) (h : applyPassword u p = Except.ok u2) :
    u2.id = u.id ∧ u2.name = u.name ∧ u2.email = u.email ∧
      (p = none → u2.password = u.password) := by
  cases p with
  | none =>
    simp only [applyPassword] at h
    injection h with h
    subst h
    exact ⟨rfl, rfl, rfl, fun _ => rfl⟩
  | some s =>
    simp only [applyPassword] at h
    split at h
    · injection h with h
      subst h
      refine ⟨rfl, rfl, rfl, fun hc => ?_⟩
      simp at hc
    · split at h
      · exact Except.noConfusion h
      · injection h with h
        subst h
        refine ⟨rfl, rfl, rfl, fun hc => ?_⟩
        simp at hc

theorem applyEmail_invalid (u : User) (s : String) (hne : s ≠ "")
    (hshape : emailShapeOk s = false) :
    applyEmail u (some s) = Except.error (Err.validation "Invalid email format") := by
  simp [applyEmail, hne, hshape]

theorem applyPassword_short (u : User) (s : String) (hne : s ≠ "") (hlen : s.length < 6) :
    applyPassword u (some s) =
      Except.error (Err.validation "Password must have at least 6 characters") := by
  simp [applyPassword, hne, hlen]

/-- A successful `update_user` field application preserves the id and
every omitted field. -/
theorem applyUserFields_ok (u : User) (nm e p : Option String) (r : User)
    (h : applyUserFields u nm e p = Except.ok r) :
    r.id = u.id ∧ (nm = none → r.name = u.name) ∧ (e = none → r.email = u.email) ∧
      (p = none → r.password = u.password) := by
  unfold applyUserFields at h
  cases he : applyEmail (applyName u nm) e with
  | ok u2 =>
    rw [he] at h
    obtain ⟨hid2, hname2, hpw2, hem2⟩ := applyEmail_ok _ _ _ he
    obtain ⟨hid3, hname3, hem3, hpw3⟩ := applyPassword_ok _ _ _ h
    refine ⟨?_, ?_, ?_, ?_⟩
    · rw [hid3, hid2, applyName_id]
    · intro hnm
      subst hnm
      rw [hname3, hname2]
      rfl
    · intro hee
      subst hee
      rw [hem3, hem2 rfl, applyName_email]
    · intro hpp
      subst hpp
      rw [hpw3 rfl, hpw2, applyName_password]
  | error e2 =>
    rw [he] at h
    exact Except.noConfusion h

/-- An `update_user` body with a non-empty malformed email or a
non-empty too-short password raises a `ValidationError`. -/
theorem applyUserFields_invalid (u : User) (nm e p : Option String)
    (hbad : (∃ s, e = some s ∧ s ≠ "" ∧ emailShapeOk s = false) ∨
      (∃ s, p = some s ∧ s ≠ "" ∧ s.length < 6)) :
    ∃ msg, applyUserFields u nm e p = Except.error (Err.validation msg) := by
  unfold applyUserFields
  rcases hbad with ⟨s, he, hne, hshape⟩ | ⟨s, hp, hne, hlen⟩
  · subst he
    rw [applyEmail_invalid _ s hne hshape]
    exact ⟨"Invalid email format", rfl⟩
  · subst hp
    cases he : applyEmail (applyName u nm) e with
    | ok u2 =>
      refine ⟨"Password must have at least 6 characters", ?_⟩
      show applyPassword u2 (some s) = _
      exact applyPassword_short u2 s hne hlen
    | error err =>
      refine ⟨"Invalid email format", ?_⟩
      show Except.error err = _
      rw [applyEmail_error _ _ _ he]

/-- A successful `update_user` splits the collection at the first record
matching the id: that record is replaced by the updated one and every
other record is untouched. -/
theorem update_user_ok (uid : Int) (nm e p : Option String) :
    ∀ (us : List User) (r : User) (us2 : List User),
      update_user uid nm e p us = Except.ok (r, us2) →
      ∃ pre u post, us = pre ++ u :: post ∧ us2 = pre ++ r :: post ∧
        (∀ v ∈ pre, v.id ≠ uid) ∧ u.id = uid ∧
        applyUserFields u nm e p = Except.ok r := by
  intro us
  induction us with
  | nil =>
    intro r us2 h
    exact Except.noConfusion h
  | cons u tail ih =>
    intro r us2 h
    simp only [update_user] at h
    by_cases hid : u.id == uid
    · rw [if_pos hid] at h
      cases hap : applyUserFields u nm e p with
      | ok u2 =>
        rw [hap] at h
        simp only [Except.ok.injEq, Prod.mk.injEq] at h
        obtain ⟨h1, h2⟩ := h
        subst h1
        subst h2
        exact ⟨[], u, tail, rfl, rfl, by simp, eq_of_beq hid, hap⟩
      | error err =>
        rw [hap] at h
        exact Except.noConfusion h
    · rw [if_neg hid] at h
      cases hrec : update_user uid nm e p tail with
      | ok pr =>
        obtain ⟨r0, us0⟩ := pr
        rw [hrec] at h
        simp only [Except.ok.injEq, Prod.mk.injEq] at h
        obtain ⟨h1, h2⟩ := h
        subst h1
        subst h2
        obtain ⟨pre, w, post, hU, hU2, hPre, hWid, hApp⟩ := ih r0 us0 hrec
        refine ⟨u :: pre, w, post, by rw [hU, List.cons_append], by rw [hU2, List.cons_append], ?_, hWid, hApp⟩
        intro v hv
        rcases List.mem_cons.mp hv with hv | hv
        · subst hv
          intro hEq
          exact hid (beq_iff_eq.mpr hEq)
        · exact hPre v hv
      | error err =>
        rw [hrec] at h
        exact Except.noConfusion h

/-- If some record matches the id but a provided field is invalid,
`update_user` raises a `ValidationError`. -/
theorem update_user_invalid (uid : Int) (nm e p : Option String) :
    ∀ us : List User, (∃ u ∈ us, u.id = uid) →
      ((∃ s, e = some s ∧ s ≠ "" ∧ emailShapeOk s = false) ∨
        (∃ s, p = some s ∧ s ≠ "" ∧ s.length < 6)) →
      ∃ msg, update_user uid nm e p us = Except.error (Err.validation msg) := by
  intro us
  induction us with
  | nil =>
    intro hex _
    obtain ⟨u, hu, _⟩ := hex
    cases hu
  | cons u tail ih =>
    intro hex hbad
    simp only [update_user]
    by_cases hid : u.id == uid
    · rw [if_pos hid]
      obtain ⟨msg, hmsg⟩ := applyUserFields_invalid u nm e p hbad
      rw [hmsg]
      exact ⟨msg, rfl⟩
    · rw [if_neg hid]
      have hex2 : ∃ v ∈ tail, v.id = uid := by
        obtain ⟨v, hv, hvid⟩ := hex
        rcases List.mem_cons.mp hv with hv | hv
        · subst hv
          exact absurd (beq_iff_eq.mpr hvid) hid
        · exact ⟨v, hv, hvid⟩
      obtain ⟨msg, hmsg⟩ := ih hex2 hbad
      rw [hmsg]
      exact ⟨msg, rfl⟩

/-- On any `update_user` error the handler raises before `write_file`,
so the persisted collection is unchanged. -/
theorem persistUsersUpdate_error (uid : Int) (nm e p : Option String) (us : List User)
    (h : ∃ err, update_user uid nm e p us = Except.error err) :
    persistUsersUpdate uid nm e p us = us := by
  obtain ⟨err, herr⟩ := h
  unfold persistUsersUpdate
  rw [herr]

/-- A successful `create_user` presupposes a fresh email and appends one
record carrying id `maxId + 1` and the given fields; the response holds
exactly the id, name and email. -/
theorem create_user_ok (name email password : String) (us : List User)
    (resp : CreateUserResponse) (us2 : List User)
    (h : create_user name email password us = Except.ok (resp, us2)) :
    (∀ u ∈ us, u.email ≠ email) ∧
    resp = ⟨maxId (us.map User.id) + 1, name, email⟩ ∧
    us2 = us ++ [⟨maxId (us.map User.id) + 1, name, email, password⟩] := by
  unfold create_user at h
  split at h
  · exact Except.noConfusion h
  · next hany =>
    simp only [Except.ok.injEq, Prod.mk.injEq] at h
    obtain ⟨h1, h2⟩ := h
    refine ⟨?_, h1.symm, h2.symm⟩
    intro u hu he
    exact hany (List.any_eq_true.mpr ⟨u, hu, beq_iff_eq.mpr he⟩)

/-- `register_user` has the same body as `create_user`. -/
theorem register_user_ok (name email password : String) (us : List User)
    (resp : CreateUserResponse) (us2 : List User)
    (h : register_user name email password us = Except.ok (resp, us2)) :
    (∀ u ∈ us, u.email ≠ email) ∧
    resp = ⟨maxId (us.map User.id) + 1, name, email⟩ ∧
    us2 = us ++ [⟨maxId (us.map User.id) + 1, name, email, password⟩] := by
  unfold register_user at h
  split at h
  · exact Except.noConfusion h
  · next hany =>
    simp only [Except.ok.injEq, Prod.mk.injEq] at h
    obtain ⟨h1, h2⟩ := h
    refine ⟨?_, h1.symm, h2.symm⟩
    intro u hu he
    exact hany (List.any_eq_true.mpr ⟨u, hu, beq_iff_eq.mpr he⟩)

/-- Appending a record with a fresh email preserves the invariant. -/
theorem emailsUnique_append (us : List User) (u : User) (h : EmailsUnique us)
    (h2 : ∀ v ∈ us, v.email ≠ u.email) : EmailsUnique (us ++ [u]) := by
  unfold EmailsUnique at h ⊢
  rw [List.map_append, List.nodup_append]
  refine ⟨h, List.nodup_singleton _, ?_⟩
  intro a ha hb
  simp only [List.map_cons, List.map_nil, List.mem_singleton] at hb
  obtain ⟨v, hv, hve⟩ := List.mem_map.mp ha
  exact h2 v hv (by rw [hve, hb])

/-- Removing records preserves the invariant. -/
theorem emailsUnique_filter (us : List User) (f : User → Bool) (h : EmailsUnique us) :
    EmailsUnique (us.filter f) := by
  unfold EmailsUnique at h ⊢
  exact List.Nodup.sublist ((List.filter_sublist us).map User.email) h

/-- `validate_user` fails exactly as the source does when no user has
the id. -/
theorem validate_user_absent (uid : Int) (users : List User) (h : ∀ u ∈ users, u.id ≠ uid) :
    validate_user uid users =
      Except.error (Err.validation ("No user exists with ID " ++ toString uid)) := by
  unfold validate_user
  rw [if_neg]
  intro hany
  obtain ⟨u, hu, hid⟩ := List.any_eq_true.mp hany
  exact h u hu (eq_of_beq hid)

theorem applyTitle_description (t : Task) (ti : Option String) :
    (applyTitle t ti).description = t.description := by
  cases ti with
  | none => rfl
  | some s =>
    simp only [applyTitle]
    split <;> rfl

theorem applyDescription_some (t : Task) (d : String) :
    (applyDescription t (some d)).description = some d := rfl

theorem applyDescription_none (t : Task) : applyDescription t none = t := rfl

theorem applyTaskUserId_ok_description (users : List User) (t t2 : Task) (uo : Option Int)
    (h : applyTaskUserId users t uo = Except.ok t2) : t2.description = t.description := by
  cases uo with
  | none =>
    simp only [applyTaskUserId] at h
    injection h with h
    subst h
    rfl
  | some uid =>
    simp only [applyTaskUserId] at h
    split at h
    · injection h with h
      subst h
      rfl
    · exact Except.noConfusion h

/-- A successful `update_task` field application gives the description
the provided value when the field is present (even when empty) and keeps
it when the field is absent. -/
theorem applyTaskFields_ok_description (users : List User) (t : Task)
    (ti d : Option String) (uo : Option Int) (r : Task)
    (h : applyTaskFields users t ti d uo = Except.ok r) :
    (∀ s, d = some s → r.description = some s) ∧
      (d = none → r.description = t.description) := by
  unfold applyTaskFields at h
  have hdesc := applyTaskUserId_ok_description users _ r uo h
  constructor
  · intro s hs
    subst hs
    rw [hdesc]
    exact applyDescription_some _ s
  · intro hd
    subst hd
    rw [hdesc, applyDescription_none, applyTitle_description]

/-- A successful `update_task` splits the collection at the first record
matching the id, replacing just that record. -/
theorem update_task_ok (tid : Int) (ti d : Option String) (uo : Option Int)
    (users : List User) :
    ∀ (ts : List Task) (r : Task) (ts2 : List Task),
      update_task tid ti d uo users ts = Except.ok (r, ts2) →
      ∃ pre t post, ts = pre ++ t :: post ∧ ts2 = pre ++ r :: post ∧
        (∀ v ∈ pre, v.id ≠ tid) ∧ t.id = tid ∧
        applyTaskFields users t ti d uo = Except.ok r := by
  intro ts
  induction ts with
  | nil =>
    intro r ts2 h
    exact Except.noConfusion h
  | cons t tail ih =>
    intro r ts2 h
    simp only [update_task] at h
    by_cases hid : t.id == tid
    · rw [if_pos hid] at h
      cases hap : applyTaskFields users t ti d uo with
      | ok t2 =>
        rw [hap] at h
        simp only [Except.ok.injEq, Prod.mk.injEq] at h
        obtain ⟨h1, h2⟩ := h
        subst h1
        subst h2
        exact ⟨[], t, tail, rfl, rfl, by simp, eq_of_beq hid, hap⟩
      | error err =>
        rw [hap] at h
        exact Except.noConfusion h
    · rw [if_neg hid] at h
      cases hrec : update_task tid ti d uo users tail with
      | ok pr =>
        obtain ⟨r0, ts0⟩ := pr
        rw [hrec] at h
        simp only [Except.ok.injEq, Prod.mk.injEq] at h
        obtain ⟨h1, h2⟩ := h
        subst h1
        subst h2
        obtain ⟨pre, w, post, hT, hT2, hPre, hWid, hApp⟩ := ih r0 ts0 hrec
        refine ⟨t :: pre, w, post, by rw [hT, List.cons_append],
          by rw [hT2, List.cons_append], ?_, hWid, hApp⟩
        intro v hv
        rcases List.mem_cons.mp hv with hv | hv
        · subst hv
          intro hEq
          exact hid (beq_iff_eq.mpr hEq)
        · exact hPre v hv
      | error err =>
        rw [hrec] at h
        exact Except.noConfusion h

/-- Decoding the JSON object written for a user recovers the record. -/
theorem user_fromJson_toJson (u : User) : User.fromJson (User.toJson u) = some u := rfl

/-- Decoding the JSON object written for a task recovers the record. -/
theorem task_fromJson_toJson (t : Task) : Task.fromJson (Task.toJson t) = some t := by
  obtain ⟨i, ti, d, uid⟩ := t
  cases d <;> cases uid <;> rfl

theorem decodeUserElems_map (us : List User) :
    decodeUserElems (us.map User.toJson) = some us := by
  induction us with
  | nil => rfl
  | cons u tail ih =>
    simp only [List.map_cons, decodeUserElems, user_fromJson_toJson, ih]

theorem decodeTaskElems_map (ts : List Task) :
    decodeTaskElems (ts.map Task.toJson) = some ts := by
  induction ts with
  | nil => rfl
  | cons t tail ih =>
    simp only [List.map_cons, decodeTaskElems, task_fromJson_toJson, ih]

/-! ### Claims -/

/-- Claim C1, counterexample: starting from a collection with distinct
emails (`a@b.c`, `d@e.f`), `update_user` on id 2 accepts the email
`a@b.c` without any uniqueness re-check and succeeds, leaving two users
with the same email.  The claim that every operation sequence preserves
email uniqueness is therefore false. -/
theorem update_user_duplicates_email :
    EmailsUnique [⟨1, "A", "a@b.c", "secret1"⟩, ⟨2, "B", "d@e.f", "secret2"⟩] ∧
    update_user 2 none (some "a@b.c") none
        [⟨1, "A", "a@b.c", "secret1"⟩, ⟨2, "B", "d@e.f", "secret2"⟩] =
      Except.ok (⟨2, "B", "a@b.c", "secret2"⟩,
        [⟨1, "A", "a@b.c", "secret1"⟩, ⟨2, "B", "a@b.c", "secret2"⟩]) ∧
    ¬ EmailsUnique [⟨1, "A", "a@b.c", "secret1"⟩, ⟨2, "B", "a@b.c", "secret2"⟩] :=
  ⟨by decide, rfl, by decide⟩

/-- Claim C1 (amended): `create_user`, `register_user` and `delete_user`
preserve the no-duplicate-email invariant; `update_user` is the one
operation that can break it, since it re-validates only the email's
shape and never its uniqueness. -/
theorem email_uniqueness_preserved_by_create_register_delete
    (name email password : String) (uid : Int) (us : List User) (h : EmailsUnique us) :
    (∀ r us2, create_user name email password us = Except.ok (r, us2) → EmailsUnique us2) ∧
    (∀ r us2, register_user name email password us = Except.ok (r, us2) → EmailsUnique us2) ∧
    (∀ us2, delete_user uid us = Except.ok us2 → EmailsUnique us2) := by
  refine ⟨?_, ?_, ?_⟩
  · intro r us2 hc
    obtain ⟨hfresh, _, hus2⟩ := create_user_ok _ _ _ _ _ _ hc
    subst hus2
    exact emailsUnique_append us _ h (fun v hv => hfresh v hv)
  · intro r us2 hc
    obtain ⟨hfresh, _, hus2⟩ := register_user_ok _ _ _ _ _ _ hc
    subst hus2
    exact emailsUnique_append us _ h (fun v hv => hfresh v hv)
  · intro us2 hd
    simp only [delete_user] at hd
    split at hd
    · exact Except.noConfusion hd
    · injection hd with hd
      subst hd
      exact emailsUnique_filter us _ h

/-- Witness for the amended C1 theorem at a concrete input. -/
theorem email_uniqueness_preserved_witness :
    EmailsUnique ([] : List User) ∧ EmailsUnique [⟨1, "A", "a@b.c", "secret1"⟩] :=
  ⟨by decide,
    (email_uniqueness_preserved_by_create_register_delete "A" "a@b.c" "secret1" 1 []
      (by decide)).1 ⟨1, "A", "a@b.c"⟩ [⟨1, "A", "a@b.c", "secret1"⟩] rfl⟩

/-- Claim C2, counterexample: from user ids `[1, 2]`, deleting the
record with the highest id (2) and then creating a user assigns
`max(remaining)+1 = 2` — exactly the deleted id — so ids can be reused
after deletion. -/
theorem deleted_highest_id_reused :
    delete_user 2 [⟨1, "A", "a@b.c", "secret1"⟩, ⟨2, "B", "d@e.f", "secret2"⟩] =
      Except.ok [⟨1, "A", "a@b.c", "secret1"⟩] ∧
    create_user "C" "c@d.e" "secret3" [⟨1, "A", "a@b.c", "secret1"⟩] =
      Except.ok (⟨2, "C", "c@d.e"⟩,
        [⟨1, "A", "a@b.c", "secret1"⟩, ⟨2, "C", "c@d.e", "secret3"⟩]) :=
  ⟨rfl, rfl⟩

/-- Claim C2 (amended): a create operation assigns
`maxId(existing ids) + 1` (with the max taken as 0 on an empty
collection), an id strictly larger than every id present at creation
time; nothing prevents it from coinciding with a previously deleted id. -/
theorem create_id_is_max_plus_one (name email password title : String)
    (d : Option String) (uo : Option Int) (us : List User) (ts : List Task) :
    (∀ resp us2, create_user name email password us = Except.ok (resp, us2) →
      resp.id = maxId (us.map User.id) + 1 ∧ ∀ u ∈ us, u.id < resp.id) ∧
    (∀ t ts2, create_task title d uo us ts = Except.ok (t, ts2) →
      t.id = maxId (ts.map Task.id) + 1 ∧ ∀ x ∈ ts, x.id < t.id) := by
  constructor
  · intro resp us2 hc
    obtain ⟨_, hresp, _⟩ := create_user_ok _ _ _ _ _ _ hc
    subst hresp
    refine ⟨rfl, ?_⟩
    intro u hu
    have hle := mem_le_maxId (us.map User.id) u.id (List.mem_map_of_mem User.id hu)
    simp only at hle ⊢
    omega
  · intro t ts2 hc
    unfold create_task at hc
    split at hc
    · exact Except.noConfusion hc
    · simp only [Except.ok.injEq, Prod.mk.injEq] at hc
      obtain ⟨h1, _⟩ := hc
      subst h1
      refine ⟨rfl, ?_⟩
      intro x hx
      have hle := mem_le_maxId (ts.map Task.id) x.id (List.mem_map_of_mem Task.id hx)
      simp only at hle ⊢
      omega

/-- Witness for the amended C2 theorem at a concrete input. -/
theorem create_id_is_max_plus_one_witness :
    (⟨1, "A", "a@b.c"⟩ : CreateUserResponse).id = maxId (([] : List User).map User.id) + 1 :=
  ((create_id_is_max_plus_one "A" "a@b.c" "secret1" "t" none none [] []).1
    ⟨1, "A", "a@b.c"⟩ [⟨1, "A", "a@b.c", "secret1"⟩] rfl).1

/-- Claim C3, counterexample: with an empty users collection — so no
user has id 0 — `create_task` with a provided `user_id = 0` does not
fail: Python's `if user_id:` treats 0 as not provided, the existence
check is skipped, and the task is appended with `user_id = 0`. -/
theorem create_task_user_id_zero_unchecked :
    create_task "t" none (some 0) [] [] =
      Except.ok (⟨1, "t", none, some 0⟩, [⟨1, "t", none, some 0⟩]) := rfl

/-- Claim C3 (amended): for every provided nonzero `user_id` with no
matching user, `create_task` fails with the `ValidationError` of
`validate_user` and the persisted tasks collection is unchanged; a
provided `user_id = 0` is falsy and skips the check entirely. -/
theorem create_task_unknown_user_rejected (title : String) (d : Option String) (uid : Int)
    (users : List User) (ts : List Task) (hnz : uid ≠ 0)
    (habs : ∀ u ∈ users, u.id ≠ uid) :
    create_task title d (some uid) users ts =
      Except.error (Err.validation ("No user exists with ID " ++ toString uid)) ∧
    persistTasksCreate title d (some uid) users ts = ts := by
  have hchk : checkTaskUser (some uid) users =
      Except.error (Err.validation ("No user exists with ID " ++ toString uid)) := by
    show (if (uid == 0) = true then Except.ok () else validate_user uid users) = _
    rw [if_neg (by simpa using hnz)]
    exact validate_user_absent uid users habs
  have hct : create_task title d (some uid) users ts =
      Except.error (Err.validation ("No user exists with ID " ++ toString uid)) := by
    unfold create_task
    rw [hchk]
  refine ⟨hct, ?_⟩
  unfold persistTasksCreate
  rw [hct]

/-- Witness for the amended C3 theorem at a concrete input. -/
theorem create_task_unknown_user_witness :
    create_task "t" none (some 5) [] [] =
      Except.error (Err.validation "No user exists with ID 5") ∧
    persistTasksCreate "t" none (some 5) [] [] = [] :=
  create_task_unknown_user_rejected "t" none 5 [] [] (by decide) (by simp)

/-- Claim C4: when the email is already registered, both `create_user`
and `register_user` fail with the same `ValidationError` before any
mutation, so the persisted users collection is exactly the old one. -/
theorem duplicate_email_rejected (name email password : String) (us : List User)
    (h : ∃ u ∈ us, u.email = email) :
    create_user name email password us =
      Except.error (Err.validation "Email already registered") ∧
    register_user name email password us =
      Except.error (Err.validation "Email already registered") ∧
    persistUsersCreate name email password us = us ∧
    persistUsersRegister name email password us = us := by
  obtain ⟨u, hu, hue⟩ := h
  have hany : us.any (fun v => v.email == email) = true :=
    List.any_eq_true.mpr ⟨u, hu, beq_iff_eq.mpr hue⟩
  have hc : create_user name email password us =
      Except.error (Err.validation "Email already registered") := by
    unfold create_user
    rw [if_pos hany]
  have hr : register_user name email password us =
      Except.error (Err.validation "Email already registered") := by
    unfold register_user
    rw [if_pos hany]
  refine ⟨hc, hr, ?_, ?_⟩
  · unfold persistUsersCreate
    rw [hc]
  · unfold persistUsersRegister
    rw [hr]

/-- Witness for the C4 theorem at a concrete input. -/
theorem duplicate_email_rejected_witness :
    create_user "B" "a@b.c" "secret2" [⟨1, "A", "a@b.c", "secret1"⟩] =
      Except.error (Err.validation "Email already registered") ∧
    register_user "B" "a@b.c" "secret2" [⟨1, "A", "a@b.c", "secret1"⟩] =
      Except.error (Err.validation "Email already registered") ∧
    persistUsersCreate "B" "a@b.c" "secret2" [⟨1, "A", "a@b.c", "secret1"⟩] =
      [⟨1, "A", "a@b.c", "secret1"⟩] ∧
    persistUsersRegister "B" "a@b.c" "secret2" [⟨1, "A", "a@b.c", "secret1"⟩] =
      [⟨1, "A", "a@b.c", "secret1"⟩] :=
  duplicate_email_rejected "B" "a@b.c" "secret2" [⟨1, "A", "a@b.c", "secret1"⟩]
    ⟨⟨1, "A", "a@b.c", "secret1"⟩, List.mem_singleton_self _, rfl⟩

/-- Claim C5: a login with a registered email but wrong password and a
login with an unregistered email fail with the same error kind and the
same message, so the two cases are indistinguishable to the caller; and
a login succeeds, returning a matching user's id, exactly when some
user matches both email and password. -/
theorem login_uniform_failure (e1 p1 e2 p2 : String) (us : List User)
    (h1 : ∀ u ∈ us, ¬(u.email = e1 ∧ u.password = p1))
    (h2 : ∀ u ∈ us, u.email ≠ e2) :
    login e1 p1 us = Except.error (Err.validation "Invalid email or password") ∧
    login e2 p2 us = login e1 p1 us ∧
    (∀ e p i, login e p us = Except.ok i →
      ∃ u ∈ us, u.email = e ∧ u.password = p ∧ u.id = i) ∧
    (∀ e p, (∃ u ∈ us, u.email = e ∧ u.password = p) →
      ∃ i, login e p us = Except.ok i) := by
  have hf1 : us.find? (fun u => u.email == e1 && u.password == p1) = none := by
    rw [List.find?_eq_none]
    intro u hu hmatch
    simp only [Bool.and_eq_true, beq_iff_eq] at hmatch
    exact h1 u hu hmatch
  have hf2 : us.find? (fun u => u.email == e2 && u.password == p2) = none := by
    rw [List.find?_eq_none]
    intro u hu hmatch
    simp only [Bool.and_eq_true, beq_iff_eq] at hmatch
    exact h2 u hu hmatch.1
  have hl1 : login e1 p1 us = Except.error (Err.validation "Invalid email or password") := by
    unfold login
    rw [hf1]
  have hl2 : login e2 p2 us = Except.error (Err.validation "Invalid email or password") := by
    unfold login
    rw [hf2]
  refine ⟨hl1, by rw [hl1, hl2], ?_, ?_⟩
  · intro e p i hok
    unfold login at hok
    cases hfind : us.find? (fun u => u.email == e && u.password == p) with
    | none =>
      rw [hfind] at hok
      exact Except.noConfusion hok
    | some u =>
      rw [hfind] at hok
      injection hok with hok
      have hmem := List.mem_of_find?_eq_some hfind
      have hp := List.find?_some hfind
      simp only [Bool.and_eq_true, beq_iff_eq] at hp
      exact ⟨u, hmem, hp.1, hp.2, hok⟩
  · intro e p hex
    obtain ⟨u, hu, hue, hup⟩ := hex
    have hsome : (us.find? (fun u => u.email == e && u.password == p)).isSome = true := by
      rw [List.find?_isSome]
      exact ⟨u, hu, by simp [hue, hup]⟩
    unfold login
    cases hfind : us.find? (fun u => u.email == e && u.password == p) with
    | none =>
      rw [hfind] at hsome
      exact absurd hsome (by simp)
    | some v =>
      exact ⟨v.id, rfl⟩

/-- Witness for the C5 theorem at a concrete input. -/
theorem login_uniform_failure_witness :
    login "a@b.c" "wrongpw" [⟨1, "A", "a@b.c", "secret1"⟩] =
      Except.error (Err.validation "Invalid email or password") ∧
    login "x@y.z" "secret1" [⟨1, "A", "a@b.c", "secret1"⟩] =
      login "a@b.c" "wrongpw" [⟨1, "A", "a@b.c", "secret1"⟩] :=
  ⟨(login_uniform_failure "a@b.c" "wrongpw" "x@y.z" "secret1"
      [⟨1, "A", "a@b.c", "secret1"⟩] (by decide) (by decide)).1,
   (login_uniform_failure "a@b.c" "wrongpw" "x@y.z" "secret1"
      [⟨1, "A", "a@b.c", "secret1"⟩] (by decide) (by decide)).2.1⟩

/-- In a collection split at the first record with a given id, `find?`
returns exactly that record. -/
theorem find_first_by_id (tid : Int) :
    ∀ (pre post : List Task) (t : Task), (∀ v ∈ pre, v.id ≠ tid) → t.id = tid →
      (pre ++ t :: post).find? (fun x => x.id == tid) = some t := by
  intro pre
  induction pre with
  | nil =>
    intro post t _ ht
    simp [List.find?_cons, beq_iff_eq.mpr ht]
  | cons q qs ih =>
    intro post t hpre ht
    rw [List.cons_append, List.find?_cons]
    have hq : (q.id == tid) = false :=
      beq_eq_false_iff_ne.mpr (hpre q (List.mem_cons_self q qs))
    rw [hq]
    exact ih post t (fun v hv => hpre v (List.mem_cons_of_mem q hv)) ht

/-- Claim C6: a successful `create_user` answers with exactly the id,
the name and the email — its response type `CreateUserResponse` carries
no password field — while the record it stores keeps the submitted
password; a successful `update_user` answers with the full stored record
(type `User`, password field included), the one the new collection holds
under the updated id. -/
theorem create_redacts_update_returns_stored (name email password : String)
    (uid : Int) (n e p : Option String) (us : List User) :
    (∀ resp us2, create_user name email password us = Except.ok (resp, us2) →
      resp = ⟨resp.id, name, email⟩ ∧
      us2 = us ++ [⟨resp.id, name, email, password⟩]) ∧
    (∀ r us2, update_user uid n e p us = Except.ok (r, us2) → r ∈ us2 ∧ r.id = uid) := by
  constructor
  · intro resp us2 hc
    obtain ⟨_, hresp, hus2⟩ := create_user_ok _ _ _ _ _ _ hc
    subst hresp
    exact ⟨rfl, hus2⟩
  · intro r us2 hu
    obtain ⟨pre, w, post, _, hus2, _, hwid, happ⟩ := update_user_ok uid n e p us r us2 hu
    subst hus2
    refine ⟨by simp, ?_⟩
    rw [(applyUserFields_ok w n e p r happ).1, hwid]

/-- Witness for the C6 theorem at concrete inputs, exercising both the
create response and the update response. -/
theorem create_redacts_update_returns_stored_witness :
    ((⟨1, "A", "a@b.c"⟩ : CreateUserResponse) =
        ⟨(⟨1, "A", "a@b.c"⟩ : CreateUserResponse).id, "A", "a@b.c"⟩ ∧
      [(⟨1, "A", "a@b.c", "secret1"⟩ : User)] =
        ([] : List User) ++ [⟨(⟨1, "A", "a@b.c"⟩ : CreateUserResponse).id, "A", "a@b.c", "secret1"⟩]) ∧
    ((⟨1, "B", "a@b.c", "secret1"⟩ : User) ∈ [(⟨1, "B", "a@b.c", "secret1"⟩ : User)] ∧
      (⟨1, "B", "a@b.c", "secret1"⟩ : User).id = 1) :=
  ⟨(create_redacts_update_returns_stored "A" "a@b.c" "secret1" 1 none none none []).1
      ⟨1, "A", "a@b.c"⟩ [⟨1, "A", "a@b.c", "secret1"⟩] rfl,
   (create_redacts_update_returns_stored "A" "a@b.c" "secret1" 1 (some "B") none none
      [⟨1, "A", "a@b.c", "secret1"⟩]).2
      ⟨1, "B", "a@b.c", "secret1"⟩ [⟨1, "B", "a@b.c", "secret1"⟩] rfl⟩

/-- Claim C7: on a successful `update_task` of an existing task id
(`t0` being the targeted record), the stored record's description is
exactly the provided value whenever the field is present — including an
explicit empty string, which clears it — and is unchanged when the field
is absent. -/
theorem update_task_description_semantics (tid : Int) (ti d : Option String)
    (uo : Option Int) (users : List User) (ts ts2 : List Task) (r t0 : Task)
    (h : update_task tid ti d uo users ts = Except.ok (r, ts2))
    (h0 : ts.find? (fun t => t.id == tid) = some t0) :
    ts2.find? (fun t => t.id == tid) = some r ∧
    r.description = (match d with | some s => some s | none => t0.description) := by
  obtain ⟨pre, t, post, hts, hts2, hpre, htid, happ⟩ :=
    update_task_ok tid ti d uo users ts r ts2 h
  obtain ⟨h1, h2⟩ := applyTaskFields_ok_description users t ti d uo r happ
  have ht0 : t0 = t := by
    rw [hts, find_first_by_id tid pre post t hpre htid] at h0
    injection h0 with h0
    exact h0.symm
  subst ht0
  have hrid : r.id = tid := by
    have := applyTaskUserId_ok_description users _ r uo happ
    calc r.id = ((applyDescription (applyTitle t0 ti) d).id : Int) := by
          cases uo with
          | none =>
            simp only [applyTaskFields, applyTaskUserId] at happ
            injection happ with happ
            rw [← happ]
          | some uid =>
            simp only [applyTaskFields, applyTaskUserId] at happ
            split at happ
            · injection happ with happ
              rw [← happ]
            · exact Except.noConfusion happ
      _ = t0.id := by
          cases d with
          | none =>
            cases ti with
            | none => rfl
            | some s =>
              simp only [applyTitle, applyDescription]
              split <;> rfl
          | some s2 =>
            cases ti with
            | none => rfl
            | some s =>
              simp only [applyTitle, applyDescription]
              split <;> rfl
      _ = tid := htid
  refine ⟨?_, ?_⟩
  · rw [hts2]
    exact find_first_by_id tid pre post r hpre hrid
  · cases d with
    | some s => exact h1 s rfl
    | none => exact h2 rfl

/-- Witness for the C7 theorem at a concrete input: an explicitly empty
description clears the stored value. -/
theorem update_task_description_witness :
    ([⟨1, "t", some "", none⟩] : List Task).find? (fun t => t.id == 1) =
      some ⟨1, "t", some "", none⟩ ∧
    (⟨1, "t", some "", none⟩ : Task).description =
      (match (some "" : Option String) with
        | some s => some s
        | none => (⟨1, "t", some "old", none⟩ : Task).description) :=
  update_task_description_semantics 1 none (some "") none [] [⟨1, "t", some "old", none⟩]
    [⟨1, "t", some "", none⟩] ⟨1, "t", some "", none⟩ ⟨1, "t", some "old", none⟩ rfl rfl

/-- Claim C8: a successful `update_user` changes only the first record
matching the id — the collection splits as `pre ++ u :: post` before and
`pre ++ r :: post` after, so every other record is untouched — and every
omitted field of the target keeps its prior value (the id always does). -/
theorem update_user_frame (uid : Int) (n e p : Option String) (us us2 : List User) (r : User)
    (h : update_user uid n e p us = Except.ok (r, us2)) :
    ∃ pre u post, us = pre ++ u :: post ∧ us2 = pre ++ r :: post ∧
      (∀ v ∈ pre, v.id ≠ uid) ∧ u.id = uid ∧ r.id = u.id ∧
      (n = none → r.name = u.name) ∧ (e = none → r.email = u.email) ∧
      (p = none → r.password = u.password) := by
  obtain ⟨pre, u, post, hus, hus2, hpre, huid, happ⟩ := update_user_ok uid n e p us r us2 h
  obtain ⟨hid, hname, hemail, hpw⟩ := applyUserFields_ok u n e p r happ
  exact ⟨pre, u, post, hus, hus2, hpre, huid, hid, hname, hemail, hpw⟩

/-- Witness for the C8 theorem at a concrete input: updating only the
name of user 2 keeps user 1 and the omitted fields intact. -/
theorem update_user_frame_witness :
    ∃ pre u post,
      ([⟨1, "A", "a@b.c", "secret1"⟩, ⟨2, "B", "d@e.f", "secret2"⟩] : List User) =
        pre ++ u :: post ∧
      ([⟨1, "A", "a@b.c", "secret1"⟩, ⟨2, "B2", "d@e.f", "secret2"⟩] : List User) =
        pre ++ (⟨2, "B2", "d@e.f", "secret2"⟩ : User) :: post ∧
      (∀ v ∈ pre, v.id ≠ 2) ∧ u.id = 2 ∧
      (⟨2, "B2", "d@e.f", "secret2"⟩ : User).id = u.id ∧
      ((some "B2" : Option String) = none →
        (⟨2, "B2", "d@e.f", "secret2"⟩ : User).name = u.name) ∧
      ((none : Option String) = none →
        (⟨2, "B2", "d@e.f", "secret2"⟩ : User).email = u.email) ∧
      ((none : Option String) = none →
        (⟨2, "B2", "d@e.f", "secret2"⟩ : User).password = u.password) :=
  update_user_frame 2 (some "B2") none none
    [⟨1, "A", "a@b.c", "secret1"⟩, ⟨2, "B", "d@e.f", "secret2"⟩]
    [⟨1, "A", "a@b.c", "secret1"⟩, ⟨2, "B2", "d@e.f", "secret2"⟩]
    ⟨2, "B2", "d@e.f", "secret2"⟩ rfl

/-- Claim C9: the record store round-trip — loading the document just
saved for a collection recovers exactly the same records for both
collections, and re-saving what was loaded writes the identical
document, so `save(load())` is idempotent.  (The byte-level `indent=4`
rendering is the formatting the claim ignores; the embedding works on
the JSON document tree that `json.dumps` serializes.) -/
theorem save_load_roundtrip (us : List User) (ts : List Task) :
    decodeUsers (encodeUsers us) = some us ∧
    decodeTasks (encodeTasks ts) = some ts ∧
    (decodeUsers (encodeUsers us)).map encodeUsers = some (encodeUsers us) ∧
    (decodeTasks (encodeTasks ts)).map encodeTasks = some (encodeTasks ts) := by
  have hu : decodeUsers (encodeUsers us) = some us := decodeUserElems_map us
  have ht : decodeTasks (encodeTasks ts) = some ts := decodeTaskElems_map ts
  refine ⟨hu, ht, ?_, ?_⟩
  · rw [hu]
    rfl
  · rw [ht]
    rfl

/-- Claim C10, counterexample: `update_user` on the existing id 1 with a
non-empty name and a provided password `""` — whose length 0 is below
6 — does not fail: Python's `if password:` treats the empty string as
not provided, so the name change is persisted. -/
theorem update_user_empty_password_not_rejected :
    ("" : String).length < 6 ∧
    update_user 1 (some "B") none (some "") [⟨1, "A", "a@b.c", "secret1"⟩] =
      Except.ok (⟨1, "B", "a@b.c", "secret1"⟩, [⟨1, "B", "a@b.c", "secret1"⟩]) ∧
    persistUsersUpdate 1 (some "B") none (some "") [⟨1, "A", "a@b.c", "secret1"⟩] =
      [⟨1, "B", "a@b.c", "secret1"⟩] :=
  ⟨by decide, rfl, rfl⟩

/-- Claim C10 (amended): an `update_user` call on an existing id that
provides a non-empty name together with a non-empty malformed email or a
non-empty password shorter than 6 fails with a `ValidationError`, and
the persisted collection is unchanged — the in-memory name change is
never written.  An explicitly empty email or password is falsy and is
treated as not provided, so it triggers no validation at all. -/
theorem update_user_invalid_field_not_persisted (uid : Int) (nm e p : Option String)
    (us : List User) (hex : ∃ u ∈ us, u.id = uid)
    (_hnm : ∃ s, nm = some s ∧ s ≠ "")
    (hbad : (∃ s, e = some s ∧ s ≠ "" ∧ emailShapeOk s = false) ∨
      (∃ s, p = some s ∧ s ≠ "" ∧ s.length < 6)) :
    (∃ msg, update_user uid nm e p us = Except.error (Err.validation msg)) ∧
    persistUsersUpdate uid nm e p us = us := by
  obtain ⟨msg, hmsg⟩ := update_user_invalid uid nm e p us hex hbad
  exact ⟨⟨msg, hmsg⟩, persistUsersUpdate_error uid nm e p us ⟨_, hmsg⟩⟩

/-- Witness for the amended C10 theorem at a concrete input. -/
theorem update_user_invalid_field_witness :
    (∃ msg, update_user 1 (some "B") (some "bad") none [⟨1, "A", "a@b.c", "secret1"⟩] =
      Except.error (Err.validation msg)) ∧
    persistUsersUpdate 1 (some "B") (some "bad") none [⟨1, "A", "a@b.c", "secret1"⟩] =
      [⟨1, "A", "a@b.c", "secret1"⟩] :=
  update_user_invalid_field_not_persisted 1 (some "B") (some "bad") none
    [⟨1, "A", "a@b.c", "secret1"⟩]
    ⟨⟨1, "A", "a@b.c", "secret1"⟩, List.mem_singleton_self _, rfl⟩
    ⟨"B", rfl, by decide⟩
    (Or.inl ⟨"bad", rfl, by decide, by decide⟩)

end Main
